import Mathlib

/-!
Verification of the RetroAchievements gamest plugin
(`gamest_plugins/retroachievements/module.py`).

The embedding models the plugin's pure data flow directly from the source:

* `get_summary` embeds `RetroachievementsPlugin.get_summary`, taking the
  outcome of the HTTP request (`get_api_response`) as a parameter: `.error ()`
  stands for any exception raised by the request or by JSON decoding (the
  source wraps exactly that call in `try/except`), and `.ok r` stands for a
  decoded JSON body whose expected keys may each be absent (`none`).
  A Python exception escaping a function is modelled as `Except.error`.

* `get_report` embeds `RetroachievementsPlugin.get_report`.  It takes the
  outcome of the `self.get_summary()` call as a parameter and returns the
  produced report (or raised exception) together with the new value of
  `self.latest_summary` and whether a fetch was attempted at all.

* `report_update`, `onGameStart`, `onGameEnd`, `cleanup` and `fireJob` embed
  the scheduling layer.  Tk's `application.after` is modelled by appending a
  fresh job id (with its delay in milliseconds) to a list of pending jobs;
  `after_cancel` removes a job id from that list.  The host environment is
  reduced to the two booleans the source consults in `report_update`'s
  `finally` block: `application.RUNNING` and whether
  `self.play_session is self.application.play_session`.

Timestamps are integers (seconds, UTC): `AchRecord.dateAwarded` is the value
of `dateutil.parser.parse(v['DateAwarded']+'Z')` and `now` the value of
`datetime.datetime.now(pytz.utc)`, so `now - v.dateAwarded` is the `ago`
timedelta of the source, and `datetime.timedelta(seconds=2*interval*60)`
is `2 * interval * 60`.
-/

namespace RA

/-- Python exception classes that the embedded plugin code can raise. -/
inductive PyErr where
  | keyError
  | typeError
  | attributeError
deriving DecidableEq, Repr

/-- One achievement record as delivered by the API: the values
`v['Title']`, `v['Description']`, `v['Points']`, and the parsed UTC award
time `dateutil.parser.parse(v['DateAwarded']+'Z')` in seconds. -/
structure AchRecord where
  title : String
  description : String
  points : Int
  dateAwarded : Int
deriving DecidableEq, Repr

/-- A Python dict from achievement id to record (insertion ordered). -/
abbrev AchMap := List (String × AchRecord)

/-- The summary dict built by `get_summary`: `presence` is
`r['RichPresenceMsg']` and `achievements` is
`r['RecentAchievements'].get(r['LastGameID'])` — a `dict.get`, hence
possibly `None`. -/
structure Summary where
  presence : String
  achievements : Option AchMap
deriving DecidableEq, Repr

/-- Decoded JSON body of `API_GetUserSummary.php`.  A field is `none` when
the corresponding key is absent from the body, in which case subscripting
it raises `KeyError` in the source. -/
structure ApiResponse where
  status : Option String
  richPresenceMsg : Option String
  recentAchievements : Option (List (String × AchMap))
  lastGameID : Option String
deriving DecidableEq, Repr

/-- The configuration values the plugin reads: `self.user`, `self.api_key`
(`config.get` returns `None` when unset), `self.interval`,
`self.add_status_updates` and `self.notify`. -/
structure Config where
  user : Option String
  api_key : Option String
  interval : Int
  add_status_updates : Bool
  notify : Bool
deriving DecidableEq, Repr

/-- Python truthiness of a configuration string: `None` and `''` are falsy,
every other string is truthy. -/
def truthyStr : Option String → Bool
  | none => false
  | some s => !s.isEmpty

/-- `RetroachievementsPlugin.get_summary`, with the outcome of
`self.get_api_response('API_GetUserSummary.php', ...)` as parameter.
The source wraps only that call in `try/except Exception: return None`;
afterwards it subscripts `r['Status']`, `r['RichPresenceMsg']`,
`r['RecentAchievements']` and `r['LastGameID']` unguarded (left-to-right
evaluation order of the dict literal), so a missing key raises `KeyError`.
The `self.config.set('latest_summary', ...)` persistence side effect is not
modelled (no claim mentions it). -/
def get_summary (fetch : Except Unit ApiResponse) : Except PyErr (Option Summary) :=
  match fetch with
  | .error _ => .ok none
  | .ok r =>
    match r.status with
    | none => .error .keyError
    | some status =>
      if status = "Offline" then .ok none
      else
        match r.richPresenceMsg with
        | none => .error .keyError
        | some msg =>
          match r.recentAchievements with
          | none => .error .keyError
          | some ra =>
            match r.lastGameID with
            | none => .error .keyError
            | some gid => .ok (some ⟨msg, ra.lookup gid⟩)

/-- The string `'**{}**: {} ({} points)'.format(v['Title'], v['Description'],
v['Points'])` built for each new achievement in `get_report`. -/
def renderAchievement (v : AchRecord) : String :=
  "**" ++ v.title ++ "**: " ++ v.description ++ " (" ++ toString v.points ++ " points)"

/-- Key membership in an achievement dict (`k in d`). -/
def hasKey (m : AchMap) (k : String) : Bool :=
  m.any (fun kv => kv.1 == k)

/-- The test `k not in self.latest_summary['achievements']`, evaluated with
its Python failure mode: when that value is `None` (a stored summary whose
game had no recent achievements), `k in None` raises `TypeError`. -/
def memLatest (latestAch : Option AchMap) (k : String) : Except PyErr Bool :=
  match latestAch with
  | none => .error .typeError
  | some m => .ok (hasKey m k)

/-- `str.join`: `'\n\n'.join(new_achievements)` is `joinSep "\n\n"`. -/
def joinSep (sep : String) : List String → String
  | [] => ""
  | [x] => x
  | x :: rest => x ++ sep ++ joinSep sep rest

/-- The `for k, v in summary['achievements'].items()` loop of `get_report`,
returning the accumulated `new_achievements` list: an achievement is kept
when its key is not in `self.latest_summary['achievements']` and its `ago`
is within the recency window (`recent v`). -/
def newAchLoop (recent : AchRecord → Bool) (latestAch : Option AchMap) :
    List (String × AchRecord) → Except PyErr (List String)
  | [] => .ok []
  | (k, v) :: rest =>
    match memLatest latestAch k with
    | .error e => .error e
    | .ok inLatest =>
      match newAchLoop recent latestAch rest with
      | .error e => .error e
      | .ok tail =>
        .ok (if !inLatest && recent v then renderAchievement v :: tail else tail)

instance {ε α : Type} [DecidableEq ε] [DecidableEq α] : DecidableEq (Except ε α) :=
  fun a b =>
    match a, b with
    | .ok x, .ok y =>
      match decEq x y with
      | isTrue h => isTrue (by rw [h])
      | isFalse h => isFalse (fun hc => h (Except.ok.inj hc))
    | .error x, .error y =>
      match decEq x y with
      | isTrue h => isTrue (by rw [h])
      | isFalse h => isFalse (fun hc => h (Except.error.inj hc))
    | .ok _, .error _ => isFalse (fun hc => Except.noConfusion hc)
    | .error _, .ok _ => isFalse (fun hc => Except.noConfusion hc)

/-- The recency filter of `get_report`:
`ago < datetime.timedelta(seconds=2*self.interval*60)` where
`ago = datetime.datetime.now(pytz.utc) - dateutil.parser.parse(v['DateAwarded']+'Z')`. -/
def recentPred (cfg : Config) (now : Int) (v : AchRecord) : Bool :=
  now - v.dateAwarded < 2 * cfg.interval * 60

/-- Outcome of one `get_report` call: the returned report (or the raised
exception), the value of `self.latest_summary` afterwards, and whether
`self.get_summary()` was reached at all. -/
structure GetReportOut where
  result : Except PyErr (Option String)
  latest : Option Summary
  fetchAttempted : Bool
deriving DecidableEq, Repr

/-- `RetroachievementsPlugin.get_report`.  `fetched` is the outcome of the
`self.get_summary()` call (which may itself raise, see `get_summary`);
`latest0` is `self.latest_summary` on entry.  Mirrors the source line by
line: the credentials guard, the falsy-summary guard, the equality guard,
the `if self.latest_summary is None: self.latest_summary = summary`
assignment (so `latest1` is the dict `self.latest_summary` refers to during
the loop), the loop over `summary['achievements'].items()` (which raises
`AttributeError` when that value is `None`), the conditional count header,
and the final unconditional `self.latest_summary = summary`. -/
def get_report (cfg : Config) (now : Int)
    (fetched : Except PyErr (Option Summary)) (latest0 : Option Summary) :
    GetReportOut :=
  if !(truthyStr cfg.user && truthyStr cfg.api_key) then
    ⟨.ok none, latest0, false⟩
  else
    match fetched with
    | .error e => ⟨.error e, latest0, true⟩
    | .ok none => ⟨.ok none, latest0, true⟩
    | .ok (some summary) =>
      if some summary = latest0 then
        ⟨.ok none, latest0, true⟩
      else
        let latest1 := latest0.getD summary
        match summary.achievements with
        | none => ⟨.error .attributeError, some latest1, true⟩
        | some items =>
          match newAchLoop (recentPred cfg now) latest1.achievements items with
          | .error e => ⟨.error e, some latest1, true⟩
          | .ok lines =>
            let report :=
              if lines.isEmpty then summary.presence
              else
                summary.presence ++ ("\n\n" ++ toString lines.length ++
                  " new achievements:\n\n") ++ joinSep "\n\n" lines
            ⟨.ok (some report), some summary, true⟩

/-- The two host conditions consulted by `report_update`'s `finally` block:
`self.application.RUNNING` and
`self.play_session is self.application.play_session`. -/
structure Env where
  running : Bool
  sessionActive : Bool
deriving DecidableEq, Repr

/-- Scheduling state of one reporter: the jobs currently pending in the Tk
event queue (id paired with its delay in milliseconds), the handle stored in
`self.job`, a fresh-id counter, and `self.latest_summary`. -/
structure RState where
  pending : List (Nat × Int)
  job : Option Nat
  nextId : Nat
  latest : Option Summary
deriving DecidableEq, Repr

/-- Observable effects of one `report_update` call: the texts passed to
`self.play_session.add_status_update`, the texts broadcast to the
notification services, whether the `finally` block re-armed the timer, and
the number of report attempts made (always one per call). -/
structure ReportOut where
  statusUpdates : List String
  notifications : List String
  rescheduled : Bool
  attempts : Nat
deriving DecidableEq, Repr

/-- `self.interval*60*1000`, the reschedule delay in milliseconds. -/
def intervalMs (cfg : Config) : Int := cfg.interval * 60 * 1000

/-- `self.job = self.application.after(delay, self.report_update)`:
a fresh job id enters the queue and `self.job` is overwritten with it. -/
def schedule (delay : Int) (st : RState) : RState :=
  { st with pending := st.pending ++ [(st.nextId, delay)],
            job := some st.nextId, nextId := st.nextId + 1 }

/-- `self.application.after_cancel(j)`: removes job `j` from the queue
(no-op if it is not pending). -/
def after_cancel (j : Nat) (st : RState) : RState :=
  { st with pending := st.pending.filter (fun p => p.1 != j) }

/-- `RetroachievementsPlugin.report_update`.  Builds the framing header
(`'{{user_name}} played …'` vs `'{{user_name}} is playing …'`), runs
`get_report` with every exception swallowed by the `except` block, emits the
status update and notifications only when the report is truthy (a nonempty
string), and in the `finally` block re-arms the timer iff
`self.application.RUNNING and self.play_session is
self.application.play_session`. -/
def report_update (cfg : Config) (env : Env) (appName : String) (now : Int)
    (fetched : Except PyErr (Option Summary)) (gameEnd : Bool)
    (st : RState) : RState × ReportOut :=
  let header :=
    if gameEnd then "\x7buser_name\x7d played **" ++ appName ++ "**:\n\n"
    else "\x7buser_name\x7d is playing **" ++ appName ++ "**:\n\n"
  let g := get_report cfg now fetched st.latest
  let effects :=
    match g.result with
    | .ok (some details) =>
      if details.isEmpty then ([], [])
      else ((if cfg.add_status_updates then [details] else []),
            (if cfg.notify then [header ++ details] else []))
    | _ => ([], [])
  let st1 := { st with latest := g.latest }
  if env.running && env.sessionActive then
    (schedule (intervalMs cfg) st1, ⟨effects.1, effects.2, true, 1⟩)
  else
    (st1, ⟨effects.1, effects.2, false, 1⟩)

/-- `onGameStart`: `self.job = self.application.after(5*60*1000,
self.report_update)`. -/
def onGameStart (st : RState) : RState :=
  schedule (5 * 60 * 1000) st

/-- `cleanup`: `if self.job: self.application.after_cancel(self.job)`. -/
def cleanup (st : RState) : RState :=
  match st.job with
  | none => st
  | some j => after_cancel j st

/-- `onGameEnd`: one synchronous `self.report_update(game_end=True)`
followed by `self.cleanup()`. -/
def onGameEnd (cfg : Config) (env : Env) (appName : String) (now : Int)
    (fetched : Except PyErr (Option Summary)) (st : RState) :
    RState × ReportOut :=
  let r := report_update cfg env appName now fetched true st
  (cleanup r.1, r.2)

/-- A pending job fires: the Tk event loop removes it from the queue and
invokes `report_update` (with in-progress framing). -/
def fireJob (cfg : Config) (env : Env) (appName : String) (now : Int)
    (fetched : Except PyErr (Option Summary)) (j : Nat) (st : RState) :
    RState × ReportOut :=
  report_update cfg env appName now fetched false
    { st with pending := st.pending.filter (fun p => p.1 != j) }

/-- Session phase: before or after the host's GameEnd event. -/
inductive Phase where
  | active
  | ended
deriving DecidableEq, Repr

/-- Reporter state at construction: no job pending, `self.job = None`,
`self.latest_summary` as restored from configuration (or from the initial
fetch). -/
def initState (latest0 : Option Summary) : RState :=
  ⟨[], none, 0, latest0⟩

/-- States reachable through the reporter's operations, each taken as one
atomic step: the single GameStart event schedules the first check, any
pending job may fire (running a full `report_update` cycle, in any phase —
also after the session ended, for a job that survived `cleanup`), and the
single GameEnd event runs the final report plus `cleanup`.  The host
environment and fetch outcome are arbitrary at every step. -/
inductive Reachable (latest0 : Option Summary) : Phase → RState → Prop where
  | started : Reachable latest0 .active (onGameStart (initState latest0))
  | fired {ph st j d cfg env appName now fetched} :
      Reachable latest0 ph st → (j, d) ∈ st.pending →
      Reachable latest0 ph (fireJob cfg env appName now fetched j st).1
  | ended {st cfg env appName now fetched} :
      Reachable latest0 .active st →
      Reachable latest0 .ended (onGameEnd cfg env appName now fetched st).1

/-! ## Helper lemmas about the achievement diff loop -/

lemma hasKey_of_mem {m : AchMap} {kv : String × AchRecord} (h : kv ∈ m) :
    hasKey m kv.1 = true := by
  simp only [hasKey, List.any_eq_true]
  exact ⟨kv, h, by simp⟩

lemma newAchLoop_ok (recent : AchRecord → Bool) (m : AchMap)
    (items : List (String × AchRecord)) :
    ∃ ls, newAchLoop recent (some m) items = .ok ls := by
  induction items with
  | nil => exact ⟨[], rfl⟩
  | cons kv rest ih =>
    obtain ⟨tail, htail⟩ := ih
    obtain ⟨k, v⟩ := kv
    exact ⟨if !(hasKey m k) && recent v then renderAchievement v :: tail else tail,
      by simp [newAchLoop, memLatest, htail]⟩

lemma newAchLoop_skip (recent : AchRecord → Bool) (m : AchMap)
    {l rest : List (String × AchRecord)}
    (h : ∀ kv ∈ l, hasKey m kv.1 = true) :
    newAchLoop recent (some m) (l ++ rest) = newAchLoop recent (some m) rest := by
  induction l with
  | nil => simp
  | cons kv l ih =>
    obtain ⟨k, v⟩ := kv
    have hk : hasKey m k = true := h (k, v) (by simp)
    have hrest : ∀ kv ∈ l, hasKey m kv.1 = true := fun kv hkv => h kv (by simp [hkv])
    obtain ⟨tail, htail⟩ := newAchLoop_ok recent m rest
    rw [List.cons_append]
    simp [newAchLoop, memLatest, ih hrest, htail, hk]

lemma newAchLoop_seen (recent : AchRecord → Bool) (m : AchMap)
    {l : List (String × AchRecord)}
    (h : ∀ kv ∈ l, hasKey m kv.1 = true) :
    newAchLoop recent (some m) l = .ok [] := by
  have := @newAchLoop_skip recent m l [] h
  simpa using this

lemma newAchLoop_single (recent : AchRecord → Bool) (m : AchMap) (k : String)
    (v : AchRecord) :
    newAchLoop recent (some m) [(k, v)] =
      .ok (if !(hasKey m k) && recent v then [renderAchievement v] else []) := by
  by_cases hc : (!(hasKey m k) && recent v) = true <;>
    simp [newAchLoop, memLatest, hc]

/-! ## Helper lemmas about `get_report` -/

lemma get_report_no_creds {cfg : Config} (now : Int)
    (fetched : Except PyErr (Option Summary)) (latest0 : Option Summary)
    (h : (truthyStr cfg.user && truthyStr cfg.api_key) = false) :
    get_report cfg now fetched latest0 = ⟨.ok none, latest0, false⟩ := by
  simp [get_report, h]

lemma get_report_same {cfg : Config} (now : Int) {s : Summary}
    {latest0 : Option Summary}
    (hu : truthyStr cfg.user = true) (hk : truthyStr cfg.api_key = true)
    (heq : some s = latest0) :
    get_report cfg now (.ok (some s)) latest0 = ⟨.ok none, latest0, true⟩ := by
  simp [get_report, hu, hk, heq]

lemma get_report_diff {cfg : Config} {now : Int} {s : Summary}
    {latest0 : Option Summary} {items : List (String × AchRecord)}
    {lines : List String}
    (hu : truthyStr cfg.user = true) (hk : truthyStr cfg.api_key = true)
    (hne : ¬ some s = latest0) (hach : s.achievements = some items)
    (hloop : newAchLoop (recentPred cfg now) (latest0.getD s).achievements items
      = .ok lines) :
    get_report cfg now (.ok (some s)) latest0 =
      ⟨.ok (some (if lines.isEmpty then s.presence
        else s.presence ++ ("\n\n" ++ toString lines.length ++
          " new achievements:\n\n") ++ joinSep "\n\n" lines)),
        some s, true⟩ := by
  simp [get_report, hu, hk, hne, hach, hloop]

/-! ## Claim C2 (corrected) -/

/-- Claim C2, counterexample: a response body that decodes as JSON but lacks
the expected keys does not yield the "no summary" result — `get_summary`
raises `KeyError` (the subscript `r['Status']` sits outside the
`try/except`), contradicting the claim that it never raises in that case. -/
theorem C2_counterexample :
    get_summary (.ok ⟨none, none, none, none⟩) = .error .keyError ∧
    get_summary (.ok ⟨none, none, none, none⟩) ≠ .ok none := by
  constructor
  · rfl
  · intro h
    cases h

/-- Claim C2 as amended: `get_summary` returns the "no summary" result
(`None`) when the request itself raises (network error, JSON-decode error)
or when the remote reports the user offline; but a response body that
decodes as JSON and lacks one of the expected keys `Status`,
`RichPresenceMsg`, `RecentAchievements`, `LastGameID` raises `KeyError`,
which propagates out of `get_summary` (its callers swallow it). -/
theorem C2_summary_failure_modes (fetch : Except Unit ApiResponse) :
    (fetch = .error () → get_summary fetch = .ok none) ∧
    (∀ r, fetch = .ok r → r.status = some "Offline" → get_summary fetch = .ok none) ∧
    (∀ r, fetch = .ok r →
      (r.status = none ∨
        (r.status ≠ some "Offline" ∧
          (r.richPresenceMsg = none ∨ r.recentAchievements = none ∨
            r.lastGameID = none))) →
      get_summary fetch = .error .keyError) := by
  refine ⟨?_, ?_, ?_⟩
  · intro h
    subst h
    rfl
  · intro r h hoff
    subst h
    simp [get_summary, hoff]
  · intro r h hcase
    subst h
    obtain ⟨status, msg, ra, gid⟩ := r
    rcases hcase with hst | ⟨hst, hrest⟩
    · simp at hst
      subst hst
      rfl
    · cases status with
      | none => rfl
      | some s =>
        have hs : ¬ s = "Offline" := by
          intro h
          exact hst (by rw [h])
        rcases hrest with hm | hra | hg
        · simp at hm
          subst hm
          simp [get_summary, hs]
        · simp at hra
          subst hra
          simp only [get_summary]
          rw [if_neg hs]
          cases msg <;> rfl
        · simp at hg
          subst hg
          simp only [get_summary]
          rw [if_neg hs]
          cases msg <;> cases ra <;> rfl

/-- Witness for `C2_summary_failure_modes`: the offline case at a concrete
response. -/
theorem C2_witness :
    get_summary (.ok ⟨some "Offline", none, none, none⟩) = .ok none :=
  (C2_summary_failure_modes (.ok ⟨some "Offline", none, none, none⟩)).2.1
    ⟨some "Offline", none, none, none⟩ rfl rfl

/-! ## Claim C5 (confirmed) -/

/-- Claim C5: when the freshly fetched snapshot equals the stored previous
snapshot by value, `get_report` yields the no-report result (`None`) and the
stored snapshot is unchanged. -/
theorem C5_identical_snapshot_no_report (cfg : Config) (now : Int) (A : Summary)
    (hu : truthyStr cfg.user = true) (hk : truthyStr cfg.api_key = true) :
    get_report cfg now (.ok (some A)) (some A) = ⟨.ok none, some A, true⟩ :=
  get_report_same now hu hk rfl

/-- Witness for `C5_identical_snapshot_no_report` at a concrete snapshot. -/
theorem C5_witness :
    get_report ⟨some "u", some "k", 5, true, true⟩ 0
      (.ok (some ⟨"Playing X", some []⟩)) (some ⟨"Playing X", some []⟩)
      = ⟨.ok none, some ⟨"Playing X", some []⟩, true⟩ :=
  C5_identical_snapshot_no_report _ 0 _ rfl rfl

/-! ## Claim C6 (confirmed) -/

/-- Claim C6: with no stored previous snapshot (`latest_summary is None`),
`get_report` on any freshly fetched snapshot (whose achievement field is a
mapping, as in the Snapshot data model) reports exactly the presence string
and never lists any new achievements, whatever the mapping's contents and
award times are: the source first sets `latest_summary = summary`, so every
key of the new snapshot is filtered out as already present. -/
theorem C6_baseline_presence_only (cfg : Config) (now : Int) (s : Summary)
    (m : AchMap)
    (hu : truthyStr cfg.user = true) (hk : truthyStr cfg.api_key = true)
    (hach : s.achievements = some m) :
    get_report cfg now (.ok (some s)) none = ⟨.ok (some s.presence), some s, true⟩ := by
  have hloop : newAchLoop (recentPred cfg now) ((none : Option Summary).getD s).achievements m
      = .ok [] := by
    simp only [Option.getD_none, hach]
    exact newAchLoop_seen _ _ (fun kv hkv => hasKey_of_mem hkv)
  have := get_report_diff hu hk (by simp) hach hloop
  simpa using this

/-- Witness for `C6_baseline_presence_only`: a concrete snapshot holding one
achievement awarded just now is still not listed. -/
theorem C6_witness :
    get_report ⟨some "u", some "k", 5, true, true⟩ 1000
      (.ok (some ⟨"Playing X", some [("42", ⟨"T", "D", 5, 1000⟩)]⟩)) none
      = ⟨.ok (some "Playing X"), some ⟨"Playing X", some [("42", ⟨"T", "D", 5, 1000⟩)]⟩, true⟩ :=
  C6_baseline_presence_only _ 1000 _ [("42", ⟨"T", "D", 5, 1000⟩)] rfl rfl rfl

/-! ## Claim C7 (corrected) -/

/-- Claim C7, counterexample: at the claim's own example inputs
(previous presence "Playing X" with no achievements, new presence
"Playing X (Level 2)" with one achievement awarded 60 seconds ago,
interval 5), the report is NOT the presence text directly followed by
"1 new achievements:…" — the source inserts a blank-line separator
(`'\n\n{} new achievements:\n\n'`) between the presence text and the count
line. -/
theorem C7_counterexample :
    (get_report ⟨some "u", some "k", 5, true, true⟩ 1000000
      (.ok (some ⟨"Playing X (Level 2)",
        some [("42", ⟨"First Steps", "Start the game", 5, 999940⟩)]⟩))
      (some ⟨"Playing X", some []⟩)).result
      ≠ .ok (some ("Playing X (Level 2)" ++
        "1 new achievements:\n\n**First Steps**: Start the game (5 points)")) := by
  decide

/-- Claim C7 as amended: the report is the presence string, then the
separator-prefixed count line `"\n\n<n> new achievements:\n\n"`, then each
qualifying achievement rendered as `"**<title>**: <description> (<points>
points)"`; at the example inputs the report equals the presence text plus
`"\n\n1 new achievements:\n\n**First Steps**: Start the game (5 points)"`. -/
theorem C7_example_report :
    (get_report ⟨some "u", some "k", 5, true, true⟩ 1000000
      (.ok (some ⟨"Playing X (Level 2)",
        some [("42", ⟨"First Steps", "Start the game", 5, 999940⟩)]⟩))
      (some ⟨"Playing X", some []⟩)).result
      = .ok (some ("Playing X (Level 2)" ++
        "\n\n1 new achievements:\n\n**First Steps**: Start the game (5 points)")) := by
  decide

/-! ## Claim C10 (confirmed) -/

/-- Claim C10: with the user name or API key unset (`None`) or empty,
`get_report` returns `None` immediately: no fetch is attempted, the stored
snapshot is untouched, and the surrounding `report_update` cycle emits no
status update and no notification. -/
theorem C10_no_credentials_no_action (cfg : Config) (env : Env)
    (appName : String) (now : Int) (fetched : Except PyErr (Option Summary))
    (gameEnd : Bool) (st : RState)
    (h : cfg.user = none ∨ cfg.user = some "" ∨
      cfg.api_key = none ∨ cfg.api_key = some "") :
    get_report cfg now fetched st.latest = ⟨.ok none, st.latest, false⟩ ∧
    (report_update cfg env appName now fetched gameEnd st).2.statusUpdates = [] ∧
    (report_update cfg env appName now fetched gameEnd st).2.notifications = [] ∧
    (report_update cfg env appName now fetched gameEnd st).1.latest = st.latest := by
  have hfalse : ∀ o : Option String, o = none ∨ o = some "" → truthyStr o = false := by
    intro o ho
    rcases ho with ho | ho <;> subst ho <;> rfl
  have hcred : (truthyStr cfg.user && truthyStr cfg.api_key) = false := by
    rcases h with h | h | h | h
    · rw [hfalse _ (Or.inl h), Bool.false_and]
    · rw [hfalse _ (Or.inr h), Bool.false_and]
    · rw [hfalse _ (Or.inl h), Bool.and_false]
    · rw [hfalse _ (Or.inr h), Bool.and_false]
  have hg := @get_report_no_creds cfg now fetched st.latest hcred
  refine ⟨hg, ?_⟩
  cases henv : env.running && env.sessionActive <;>
    simp [report_update, hg, henv, schedule]

/-- Witness for `C10_no_credentials_no_action` at a concrete configuration
with an empty API key. -/
theorem C10_witness :
    get_report ⟨some "u", some "", 5, true, true⟩ 0 (.ok none)
      (initState none).latest = ⟨.ok none, (initState none).latest, false⟩ ∧
    (report_update ⟨some "u", some "", 5, true, true⟩ ⟨true, true⟩ "Game" 0
      (.ok none) false (initState none)).2.statusUpdates = [] ∧
    (report_update ⟨some "u", some "", 5, true, true⟩ ⟨true, true⟩ "Game" 0
      (.ok none) false (initState none)).2.notifications = [] ∧
    (report_update ⟨some "u", some "", 5, true, true⟩ ⟨true, true⟩ "Game" 0
      (.ok none) false (initState none)).1.latest = (initState none).latest :=
  C10_no_credentials_no_action _ _ "Game" 0 (.ok none) false (initState none)
    (Or.inr (Or.inr (Or.inr rfl)))

/-! ## Claim C1 (confirmed) -/

/-- Claim C1: with a stored previous snapshot `P` and a freshly fetched
snapshot `N` whose achievements are exactly `P`'s plus one record (under a
key absent from `P`) awarded `delta` seconds before now, the report includes
that record iff `delta < 2 * interval_minutes * 60` seconds; otherwise the
record is excluded and the report is the presence string alone.  The records
inherited from `P` are never listed. -/
theorem C1_new_record_reported_iff_recent (cfg : Config) (now delta : Int)
    (P N : Summary) (pm : AchMap) (k : String) (rec : AchRecord)
    (hu : truthyStr cfg.user = true) (hk : truthyStr cfg.api_key = true)
    (hP : P.achievements = some pm)
    (hN : N.achievements = some (pm ++ [(k, rec)]))
    (hnew : hasKey pm k = false)
    (hdate : rec.dateAwarded = now - delta) :
    (get_report cfg now (.ok (some N)) (some P)).result =
      .ok (some (if delta < 2 * cfg.interval * 60
        then N.presence ++ "\n\n1 new achievements:\n\n" ++ renderAchievement rec
        else N.presence)) := by
  have hne : ¬ some N = some P := by
    intro h
    have hNP : N = P := by injection h
    rw [hNP, hP] at hN
    have : pm = pm ++ [(k, rec)] := by injection hN
    have hlen := congrArg List.length this
    simp at hlen
  have hrec : recentPred cfg now rec = decide (delta < 2 * cfg.interval * 60) := by
    have h1 : now - rec.dateAwarded = delta := by rw [hdate]; ring
    simp [recentPred, h1]
  have hloop : newAchLoop (recentPred cfg now) ((some P).getD N).achievements
      (pm ++ [(k, rec)]) =
      .ok (if delta < 2 * cfg.interval * 60 then [renderAchievement rec] else []) := by
    show newAchLoop (recentPred cfg now) P.achievements (pm ++ [(k, rec)]) = _
    rw [hP, newAchLoop_skip _ _ (fun kv hkv => hasKey_of_mem hkv),
      newAchLoop_single, hnew, hrec]
    by_cases hd : delta < 2 * cfg.interval * 60 <;> simp [hd]
  rw [get_report_diff hu hk hne hN hloop]
  by_cases hd : delta < 2 * cfg.interval * 60
  · have hstep : ("\n\n" ++ toString (1 : ℕ) ++ " new achievements:\n\n" : String)
        = "\n\n1 new achievements:\n\n" := by decide
    simp only [if_pos hd, List.isEmpty_cons, List.length_cons, List.length_nil]
    rw [show joinSep "\n\n" [renderAchievement rec] = renderAchievement rec from rfl]
    rw [show (toString (0 + 1 : ℕ)) = toString (1 : ℕ) from rfl, hstep]
    simp
  · simp [if_neg hd]

/-- Witness for `C1_new_record_reported_iff_recent`: one new achievement
awarded 60 seconds ago with a 5-minute interval is reported. -/
theorem C1_witness :
    (get_report ⟨some "u", some "k", 5, true, true⟩ 1000
      (.ok (some ⟨"Playing Y", some [("7", ⟨"Old", "O", 1, 0⟩), ("42", ⟨"T", "D", 5, 940⟩)]⟩))
      (some ⟨"Playing X", some [("7", ⟨"Old", "O", 1, 0⟩)]⟩)).result =
      .ok (some (if (60 : Int) < 2 * 5 * 60
        then "Playing Y" ++ "\n\n1 new achievements:\n\n"
          ++ renderAchievement ⟨"T", "D", 5, 940⟩
        else "Playing Y")) :=
  C1_new_record_reported_iff_recent _ 1000 60 ⟨"Playing X", some [("7", ⟨"Old", "O", 1, 0⟩)]⟩
    ⟨"Playing Y", some [("7", ⟨"Old", "O", 1, 0⟩), ("42", ⟨"T", "D", 5, 940⟩)]⟩
    [("7", ⟨"Old", "O", 1, 0⟩)] "42" ⟨"T", "D", 5, 940⟩
    rfl rfl rfl rfl (by decide) (by decide)

/-! ## Claim C8 (confirmed) -/

/-- Claim C8: after any `get_report` call in which a snapshot was
successfully fetched, the stored previous snapshot equals the freshly
fetched snapshot — unconditionally, also when no report is produced (the
no-change branch leaves `latest_summary` holding a value equal to the fetch).
Both snapshots are taken with achievement mappings present, as in the
Snapshot data model. -/
theorem C8_stored_snapshot_replaced (cfg : Config) (now : Int) (s : Summary)
    (m : AchMap) (latest0 : Option Summary)
    (hu : truthyStr cfg.user = true) (hk : truthyStr cfg.api_key = true)
    (hach : s.achievements = some m)
    (hlat : latest0 = none ∨ ∃ p pm, latest0 = some p ∧ p.achievements = some pm) :
    (get_report cfg now (.ok (some s)) latest0).latest = some s := by
  by_cases heq : some s = latest0
  · rw [get_report_same now hu hk heq]
    exact heq.symm
  · rcases hlat with hnone | ⟨p, pm, hsome, hpach⟩
    · subst hnone
      obtain ⟨ls, hloop⟩ := newAchLoop_ok (recentPred cfg now) m m
      have hloop2 : newAchLoop (recentPred cfg now)
          ((none : Option Summary).getD s).achievements m = .ok ls := by
        simpa [hach] using hloop
      rw [get_report_diff hu hk heq hach hloop2]
    · subst hsome
      obtain ⟨ls, hloop⟩ := newAchLoop_ok (recentPred cfg now) pm m
      have hloop2 : newAchLoop (recentPred cfg now)
          ((some p).getD s).achievements m = .ok ls := by
        simpa [hpach] using hloop
      rw [get_report_diff hu hk heq hach hloop2]

/-- Witness for `C8_stored_snapshot_replaced`: the fetched snapshot replaces
a differing stored one even though its only achievement is too old to be
reported. -/
theorem C8_witness :
    (get_report ⟨some "u", some "k", 5, true, true⟩ 10000
      (.ok (some ⟨"B", some [("42", ⟨"T", "D", 5, 0⟩)]⟩))
      (some ⟨"A", some []⟩)).latest = some ⟨"B", some [("42", ⟨"T", "D", 5, 0⟩)]⟩ :=
  C8_stored_snapshot_replaced _ 10000 _ [("42", ⟨"T", "D", 5, 0⟩)] _ rfl rfl rfl
    (Or.inr ⟨⟨"A", some []⟩, [], rfl, rfl⟩)

/-! ## Helper lemmas about the scheduling layer -/

lemma report_update_fst (cfg : Config) (env : Env) (appName : String) (now : Int)
    (fetched : Except PyErr (Option Summary)) (gameEnd : Bool) (st : RState) :
    (report_update cfg env appName now fetched gameEnd st).1 =
      if env.running && env.sessionActive then
        schedule (intervalMs cfg)
          { st with latest := (get_report cfg now fetched st.latest).latest }
      else { st with latest := (get_report cfg now fetched st.latest).latest } := by
  cases henv : env.running && env.sessionActive <;> simp [report_update, henv]

lemma report_update_attempts (cfg : Config) (env : Env) (appName : String)
    (now : Int) (fetched : Except PyErr (Option Summary)) (gameEnd : Bool)
    (st : RState) :
    (report_update cfg env appName now fetched gameEnd st).2.attempts = 1 := by
  cases henv : env.running && env.sessionActive <;> simp [report_update, henv]

lemma cleanup_schedule (delay : Int) (st : RState)
    (hfresh : ∀ p ∈ st.pending, p.1 < st.nextId) :
    cleanup (schedule delay st)
      = ⟨st.pending, some st.nextId, st.nextId + 1, st.latest⟩ := by
  have h1 : st.pending.filter (fun p => p.1 != st.nextId) = st.pending := by
    apply List.filter_eq_self.mpr
    intro p hp
    have := hfresh p hp
    simp
    omega
  simp [cleanup, schedule, after_cancel, List.filter_append, h1]

lemma length_le_one_eq_single {α : Type} {l : List α} {x : α}
    (h : l.length ≤ 1) (hx : x ∈ l) : l = [x] := by
  cases l with
  | nil => cases hx
  | cons a t =>
    cases t with
    | nil =>
      simp at hx
      rw [hx]
    | cons b t2 => simp at h

/-- The invariant maintained across the reporter's atomic operations: at
most one pending job; pending ids are below the fresh-id counter; and while
the session is active, any pending job is the one `self.job` holds. -/
def Inv (ph : Phase) (st : RState) : Prop :=
  st.pending.length ≤ 1 ∧
  (∀ p ∈ st.pending, p.1 < st.nextId) ∧
  (ph = .active → ∀ p ∈ st.pending, st.job = some p.1)

lemma reach_inv {latest0 : Option Summary} {ph : Phase} {st : RState}
    (h : Reachable latest0 ph st) : Inv ph st := by
  induction h with
  | started =>
    refine ⟨by simp [onGameStart, schedule, initState], ?_, ?_⟩
    · intro p hp
      simp [onGameStart, schedule, initState] at hp
      simp [hp, onGameStart, schedule, initState]
    · intro _ p hp
      simp [onGameStart, schedule, initState] at hp
      simp [hp, onGameStart, schedule, initState]
  | fired h hmem ih =>
    rename_i ph st j d cfg env appName now fetched
    have hsingle : st.pending = [(j, d)] := length_le_one_eq_single ih.1 hmem
    have hfilter : st.pending.filter (fun p => p.1 != j) = [] := by
      rw [hsingle]
      simp
    rw [fireJob, report_update_fst]
    cases henv : env.running && env.sessionActive
    · refine ⟨?_, ?_, ?_⟩ <;> simp [hfilter]
    · refine ⟨?_, ?_, ?_⟩ <;> simp [schedule, hfilter]
  | ended h ih =>
    rename_i st cfg env appName now fetched
    have hgoal : (onGameEnd cfg env appName now fetched st).1
        = cleanup (report_update cfg env appName now fetched true st).1 := rfl
    rw [hgoal, report_update_fst]
    cases henv : env.running && env.sessionActive
    · cases hjob : st.job with
      | none =>
        refine ⟨by simpa [cleanup, hjob] using ih.1, ?_, by intro hc; cases hc⟩
        intro p hp
        simp [cleanup, hjob] at hp
        exact ih.2.1 p hp
      | some j =>
        refine ⟨?_, ?_, by intro hc; cases hc⟩
        · simp only [cleanup, hjob, after_cancel]
          exact le_trans (List.length_filter_le _ _) ih.1
        · intro p hp
          simp only [cleanup, hjob, after_cancel] at hp
          exact ih.2.1 p (List.mem_of_mem_filter hp)
    · rw [if_pos rfl]
      have hc := cleanup_schedule (intervalMs cfg)
        { st with latest := (get_report cfg now fetched st.latest).latest } ih.2.1
      rw [hc]
      refine ⟨ih.1, ?_, by intro hc2; cases hc2⟩
      intro p hp
      have h2 := ih.2.1 p hp
      show p.1 < st.nextId + 1
      omega

/-! ## Claim C4 (confirmed) -/

/-- Claim C4: in every state reachable through the reporter's atomic
operations — the GameStart scheduling, a pending job firing and running a
`report_update` cycle (which reschedules from within the cycle), and the
GameEnd final report plus `cleanup` — at most one scheduled delayed check is
outstanding. -/
theorem C4_at_most_one_outstanding {latest0 : Option Summary} {ph : Phase}
    {st : RState} (h : Reachable latest0 ph st) :
    st.pending.length ≤ 1 :=
  (reach_inv h).1

/-- Witness for `C4_at_most_one_outstanding` at the state right after
GameStart. -/
theorem C4_witness : (onGameStart (initState none)).pending.length ≤ 1 :=
  C4_at_most_one_outstanding Reachable.started

/-! ## Claim C3 (corrected) -/

/-- Claim C3, counterexample: `onGameEnd` does not always leave the pending
queue empty.  Right after GameStart (job 0 pending), if the host still
reports the session active when the final `report_update` runs, its
`finally` block arms a new job 1 and overwrites `self.job`; `cleanup` then
cancels job 1, and the original job 0 is still pending after `onGameEnd`
returns. -/
theorem C3_counterexample :
    (onGameEnd ⟨some "u", some "k", 5, true, true⟩ ⟨true, true⟩ "Game" 0
      (.ok none) (onGameStart (initState none))).1.pending
      = [(0, 5 * 60 * 1000)] ∧
    (onGameEnd ⟨some "u", some "k", 5, true, true⟩ ⟨true, true⟩ "Game" 0
      (.ok none) (onGameStart (initState none))).1.pending ≠ [] := by
  constructor
  · rfl
  · intro h
    cases h

/-- Claim C3 as amended: `onGameEnd` always performs exactly one synchronous
report attempt (passing the end-of-session flag); and whenever the host no
longer treats the session as active (or is no longer running) during that
final attempt, no scheduled delayed check remains pending afterwards.  (If
the host still considers the session active, the freshly re-armed check is
cancelled but a previously pending one survives, as the counterexample
shows.) -/
theorem C3_final_report_and_cancel {latest0 : Option Summary} {st : RState}
    (cfg : Config) (env : Env) (appName : String) (now : Int)
    (fetched : Except PyErr (Option Summary))
    (h : Reachable latest0 .active st)
    (hoff : env.running = false ∨ env.sessionActive = false) :
    (onGameEnd cfg env appName now fetched st).2.attempts = 1 ∧
    (onGameEnd cfg env appName now fetched st).1.pending = [] := by
  have hinv := reach_inv h
  have henv : (env.running && env.sessionActive) = false := by
    rcases hoff with h1 | h1 <;> simp [h1]
  constructor
  · show (report_update cfg env appName now fetched true st).2.attempts = 1
    exact report_update_attempts cfg env appName now fetched true st
  · show (cleanup (report_update cfg env appName now fetched true st).1).pending = []
    rw [report_update_fst, henv, if_neg (by simp)]
    have hjobs := hinv.2.2 rfl
    cases hjob : st.job with
    | none =>
      show st.pending = []
      cases hp : st.pending with
      | nil => rfl
      | cons a t =>
        have := hjobs a (by rw [hp]; simp)
        rw [hjob] at this
        cases this
    | some j =>
      show st.pending.filter (fun p => p.1 != j) = []
      apply List.filter_eq_nil_iff.mpr
      intro p hp
      have := hjobs p hp
      rw [hjob] at this
      have hpj : p.1 = j := by
        injection this with h2
        exact h2.symm
      simp [hpj]

/-- Witness for `C3_final_report_and_cancel`: ending the session right after
GameStart while the host no longer lists it as active cancels the pending
check. -/
theorem C3_witness :
    (onGameEnd ⟨some "u", some "k", 5, true, true⟩ ⟨true, false⟩ "Game" 0
      (.ok none) (onGameStart (initState none))).2.attempts = 1 ∧
    (onGameEnd ⟨some "u", some "k", 5, true, true⟩ ⟨true, false⟩ "Game" 0
      (.ok none) (onGameStart (initState none))).1.pending = [] :=
  C3_final_report_and_cancel _ _ "Game" 0 (.ok none) Reachable.started
    (Or.inr rfl)

/-! ## Claim C9 (corrected) -/

/-- Claim C9, counterexample: rescheduling is not equivalent to the owning
session being the host's active session — the source's `finally` block also
requires `self.application.RUNNING`.  With the host not running but the
session still active, no reschedule happens although the claim requires
one. -/
theorem C9_counterexample :
    (report_update ⟨some "u", some "k", 5, true, true⟩ ⟨false, true⟩ "Game" 0
      (.ok none) false (onGameStart (initState none))).2.rescheduled = false ∧
    (⟨false, true⟩ : Env).sessionActive = true := by
  constructor
  · rfl
  · rfl

/-- Claim C9 as amended: on every `report_update` invocation — whatever the
fetch outcome (success, no data, or a raised exception) and whatever report
was built — the reporter re-arms itself iff the host is running AND the
owning session is still the host's active session; when it re-arms, the new
check is queued with the configured interval (in milliseconds), and when it
does not, the pending queue is untouched. -/
theorem C9_reschedule_iff_running_and_active (cfg : Config) (env : Env)
    (appName : String) (now : Int) (fetched : Except PyErr (Option Summary))
    (gameEnd : Bool) (st : RState) :
    (report_update cfg env appName now fetched gameEnd st).2.rescheduled
      = (env.running && env.sessionActive) ∧
    ((env.running && env.sessionActive) = true →
      (report_update cfg env appName now fetched gameEnd st).1.pending
        = st.pending ++ [(st.nextId, cfg.interval * 60 * 1000)]) ∧
    ((env.running && env.sessionActive) = false →
      (report_update cfg env appName now fetched gameEnd st).1.pending
        = st.pending) := by
  cases henv : env.running && env.sessionActive <;>
    simp [report_update, henv, schedule, intervalMs]

/-- Witness for `C9_reschedule_iff_running_and_active`: with the host
running and the session active, the cycle queues the next check after the
configured interval. -/
theorem C9_witness :
    (report_update ⟨some "u", some "k", 7, true, true⟩ ⟨true, true⟩ "Game" 0
      (.ok none) false (initState none)).1.pending
      = (initState none).pending ++ [((initState none).nextId, 7 * 60 * 1000)] :=
  (C9_reschedule_iff_running_and_active ⟨some "u", some "k", 7, true, true⟩
    ⟨true, true⟩ "Game" 0 (.ok none) false (initState none)).2.1 rfl

end RA
